import Mathlib

/-!
Verification of the post-and-tag consistency core of the blogging backend.
The source of truth is the Express posts router (src/unnamed/part_001): the
create / update / delete / single-read / like handlers are embedded as pure
functions over an explicit store state `DB`.  MongoDB's
`updateMany({_id: {$in: ids}}, {$inc: {postCount: d}})` is embedded as
`incTags` (each matching tag document receives the delta once, however many
times its id occurs in `ids`); `findById` / `findOne` become `List.find?`;
`save()` on a loaded document writes back by id.  Request-level failure is an
`Except Err` result: an `Except.error` outcome touches no state, mirroring the
handlers, which return early before any write on those paths.
-/

namespace ThisBlog

/-- `status` field of a Post: the validator admits exactly draft/published. -/
inductive Status
  | draft
  | published
deriving DecidableEq, Repr

/-- Roles relevant to the single-post read handler's draft gate
(`req.user.role !== 'admin' && req.user.role !== 'super_admin'`). -/
inductive Role
  | user
  | admin
  | superAdmin
deriving DecidableEq, Repr

/-- Request-level failures of the handlers: 400 validation, 404 not found,
403 forbidden. -/
inductive Err
  | validation
  | notFound
  | forbidden
deriving DecidableEq, Repr

/-- A Tag document.  `postCount` is an `Int` because MongoDB's `$inc` has no
floor: a buggy delta can drive the stored counter negative. -/
structure Tag where
  id : Nat
  name : String
  postCount : Int
deriving DecidableEq, Repr

/-- A Post document, with the fields the posts router reads and writes.
Option-valued fields model document paths that may be unset: assigning
`undefined` via `Object.assign` on the loaded document unsets the path, which
is `none` here.  `status` is Option-valued for the same reason (the update
handler assigns whatever was destructured from the request body). -/
structure Post where
  id : Nat
  author : Nat
  title : String
  content : String
  excerpt : Option String
  coverImage : String
  tags : List Nat
  status : Option Status
  seoTitle : Option String
  seoDescription : Option String
  featured : Bool
  viewCount : Int
  likeCount : Int
deriving DecidableEq, Repr

/-- The store: the Tag and Post collections plus the id supply.  `_id`s are
unique in MongoDB; freshness of generated ids is stated as a hypothesis where
a theorem needs it. -/
structure DB where
  tags : List Tag
  posts : List Post
  nextTagId : Nat
  nextPostId : Nat
deriving DecidableEq, Repr

/-- The `tags` value of a request body: the handlers accept either an array of
names or a comma-separated string (`Array.isArray(tags) ? tags :
tags.split(',').map(tag => tag.trim())`). -/
inductive TagsField
  | arr (names : List String)
  | str (raw : String)
deriving DecidableEq, Repr

/-- The request-body fields destructured by the create and update handlers.
`none` on an Option field is an absent body field (`undefined`). -/
structure PostReq where
  title : String
  content : String
  excerpt : Option String
  tags : TagsField
  status : Option Status
  seoTitle : Option String
  seoDescription : Option String
  featured : Option Bool
  file : Option String
deriving DecidableEq, Repr

/-- JavaScript `String.prototype.toLowerCase` for the ASCII data used here. -/
def jsToLower (s : String) : String :=
  String.mk (s.data.map Char.toLower)

/-- JavaScript `String.prototype.trim` (strip leading and trailing
whitespace) for the ASCII data used here. -/
def jsTrim (s : String) : String :=
  String.mk (((s.data.dropWhile Char.isWhitespace).reverse.dropWhile
    Char.isWhitespace).reverse)

/-- `raw.split(',')` over the characters; JavaScript yields `[""]` on the
empty string, as this does. -/
def splitCommaAux : List Char → List Char → List String
  | [], acc => [String.mk acc.reverse]
  | c :: cs, acc =>
    if c = ',' then String.mk acc.reverse :: splitCommaAux cs []
    else splitCommaAux cs (c :: acc)

/-- The tag-name list the handlers iterate over:
`Array.isArray(tags) ? tags : tags.split(',').map(tag => tag.trim())`. -/
def tagNamesOf : TagsField → List String
  | TagsField.arr names => names
  | TagsField.str raw => (splitCommaAux raw.data []).map jsTrim

/-- Modelled from the spec: models/Tag.js is not under src/.  Per the spec a
Tag's name is its identity, "case-insensitive; stored lower-cased", with
names trimmed before resolution, so the schema's name setter — applied by the
store to both saved values and query filters — is lowercase-and-trim. -/
def tagStoreNorm (s : String) : String :=
  jsTrim (jsToLower s)

/-- The `postValidation` rules the create and update handlers share:
`title` is trimmed to a length in [3, 200], `content` is trimmed to a length
of at least 10 (the `status` rule is enforced by the `Status` type here). -/
def postValidationOk (title content : String) : Bool :=
  decide (3 ≤ (jsTrim title).length) && decide ((jsTrim title).length ≤ 200)
    && decide (10 ≤ (jsTrim content).length)

/-- `Post.findById` on the posts collection. -/
def findPost (db : DB) (pid : Nat) : Option Post :=
  db.posts.find? (fun p => p.id == pid)

/-- `Tag.findById` on a tag collection value. -/
def findTagIn (tags : List Tag) (i : Nat) : Option Tag :=
  tags.find? (fun t => t.id == i)

/-- The stored `postCount` of the tag with id `i`, if present. -/
def tagCountIn (tags : List Tag) (i : Nat) : Option Int :=
  (findTagIn tags i).map Tag.postCount

/-- The stored `postCount` of the tag with id `i` in the store. -/
def tagCount (db : DB) (i : Nat) : Option Int :=
  tagCountIn db.tags i

/-- The stored `postCount` of the tag named `n`, if present. -/
def tagCountByName (db : DB) (n : String) : Option Int :=
  (db.tags.find? (fun t => t.name == n)).map Tag.postCount

/-- The tag-processing loop shared verbatim by the create and update handlers:
for each name, skip it when empty (JavaScript string truthiness), otherwise
`Tag.findOne({name: tagName.toLowerCase()})` — the store's name setter
normalises the filter value, hence the `tagStoreNorm` around the lower-cased
name — creating a missing tag with `postCount` left at its default 0, and
push the resolved id (duplicates are pushed again, not collapsed).  Returns
the pushed id list, the tag collection after any creations, and the id
supply. -/
def resolveTags : List String → List Tag → Nat → (List Nat × List Tag × Nat)
  | [], tags, next => ([], tags, next)
  | name :: rest, tags, next =>
    if name == "" then resolveTags rest tags next
    else
      let key := tagStoreNorm (jsToLower name)
      match tags.find? (fun t => t.name == key) with
      | some t =>
        let (ids, tags', next') := resolveTags rest tags next
        (t.id :: ids, tags', next')
      | none =>
        let newTag : Tag := { id := next, name := key, postCount := 0 }
        let (ids, tags', next') := resolveTags rest (tags ++ [newTag]) (next + 1)
        (next :: ids, tags', next')

/-- `Tag.updateMany({_id: {$in: ids}}, {$inc: {postCount: d}})`: every tag
document whose id is in `ids` receives the delta exactly once — `$in`
matches a document, it does not multiply by occurrences. -/
def incTags (tags : List Tag) (ids : List Nat) (d : Int) : List Tag :=
  tags.map (fun t =>
    if ids.contains t.id then { t with postCount := t.postCount + d } else t)

/-- Cover-image path resolution: `/uploads/posts/<filename>` when a file was
uploaded, otherwise the fallback (the empty string in create, the previous
value in update). -/
def coverPathOr (file : Option String) (old : String) : String :=
  match file with
  | some f => "/uploads/posts/" ++ f
  | none => old

/-- The create handler (`router.post('/')`): validation, cover image, the
tag-resolution loop, persisting the post (counters start at 0, per the Post
schema's defaults), then `updateMany` incrementing `postCount` of every
resolved tag by 1.  `status` defaults to draft and `featured` to false via
the destructuring defaults. -/
def createPost (db : DB) (userId : Nat) (r : PostReq) :
    Except Err (DB × Post) :=
  if postValidationOk r.title r.content then
    let coverImage := coverPathOr r.file ""
    let (tagIds, tags', nextTag') :=
      resolveTags (tagNamesOf r.tags) db.tags db.nextTagId
    let post : Post :=
      { id := db.nextPostId
        author := userId
        title := jsTrim r.title
        content := jsTrim r.content
        excerpt := r.excerpt
        coverImage := coverImage
        tags := tagIds
        status := some (r.status.getD Status.draft)
        seoTitle := r.seoTitle
        seoDescription := r.seoDescription
        featured := r.featured.getD false
        viewCount := 0
        likeCount := 0 }
    let tags'' := incTags tags' tagIds 1
    Except.ok
      ({ tags := tags''
         posts := db.posts ++ [post]
         nextTagId := nextTag'
         nextPostId := db.nextPostId + 1 }, post)
  else Except.error Err.validation

/-- The update handler (`router.put('/:id')`): validation, `findById` (404),
ownership check (403), cover-image overwrite when a file is supplied, the
tag-resolution loop, the two `updateMany` delta writes, then `Object.assign`
on the loaded document and `save()`.

The two delta filters are embedded with their actual JavaScript semantics:

* `removedTagIds = oldTagIds.filter(tagId => !tagIds.includes(tagId.toString()))`
  — `tagIds` is a plain array of ObjectIds, so `Array.prototype.includes`
  compares them to the string `tagId.toString()` with SameValueZero; an
  object never equals a string, the predicate is true for every element, and
  `removedTagIds` is all of `post.tags`.
* `addedTagIds = tagIds.filter(tagId => !oldTagIds.includes(tagId))`
  — `post.tags` is a mongoose array whose `includes`/`indexOf` compare
  ObjectIds by stringified value, so this keeps exactly the resolved ids not
  already in the old tag set.

`Object.assign` copies every destructured body field onto the document, so an
absent body field (`undefined`, `none` here) unsets the path — only
`featured` (`featured !== undefined ? featured : post.featured`) and the
cover image (written only under `if (req.file)`) retain the old value. -/
def updatePost (db : DB) (pid userId : Nat) (r : PostReq) :
    Except Err (DB × Post) :=
  if postValidationOk r.title r.content then
    match findPost db pid with
    | none => Except.error Err.notFound
    | some post =>
      if post.author ≠ userId then Except.error Err.forbidden
      else
        let post₁ := { post with coverImage := coverPathOr r.file post.coverImage }
        let (tagIds, tags', nextTag') :=
          resolveTags (tagNamesOf r.tags) db.tags db.nextTagId
        let oldTagIds := post.tags
        let removedTagIds := oldTagIds
        let addedTagIds := tagIds.filter (fun i => !oldTagIds.contains i)
        let tags₂ := incTags tags' removedTagIds (-1)
        let tags₃ := incTags tags₂ addedTagIds 1
        let post₂ : Post :=
          { post₁ with
            title := jsTrim r.title
            content := jsTrim r.content
            excerpt := r.excerpt
            tags := tagIds
            status := r.status
            seoTitle := r.seoTitle
            seoDescription := r.seoDescription
            featured := r.featured.getD post.featured }
        Except.ok
          ({ db with
             tags := tags₃
             nextTagId := nextTag'
             posts := db.posts.map (fun q => if q.id == pid then post₂ else q) },
           post₂)
  else Except.error Err.validation

/-- The delete handler (`router.delete('/:id')`): `findById` (404), ownership
check (403), then `updateMany` decrementing `postCount` of every tag of the
post by 1, then `findByIdAndDelete`. -/
def deletePost (db : DB) (pid userId : Nat) : Except Err DB :=
  match findPost db pid with
  | none => Except.error Err.notFound
  | some post =>
    if post.author ≠ userId then Except.error Err.forbidden
    else
      let tags' := incTags db.tags post.tags (-1)
      Except.ok
        { db with
          tags := tags'
          posts := db.posts.filter (fun q => q.id != pid) }

/-- The single-post read handler's draft gate: a draft is visible only to an
authenticated admin or super_admin (`!req.user || (req.user.role !== 'admin'
&& req.user.role !== 'super_admin')`). -/
def canSeeDraft : Option Role → Bool
  | some Role.admin => true
  | some Role.superAdmin => true
  | _ => false

/-- The single-post read handler (`router.get('/:id')`), looked up by id (the
slug fallback performs the same logic after its own lookup): 404 when absent;
404 when not published and the viewer may not see drafts; a `$inc` of
`viewCount` by 1 exactly when the post is published, with the incremented
copy returned; a draft read by an admin returns the post untouched. -/
def getPost (db : DB) (pid : Nat) (viewer : Option Role) :
    Except Err (DB × Post) :=
  match findPost db pid with
  | none => Except.error Err.notFound
  | some post =>
    if post.status ≠ some Status.published ∧ canSeeDraft viewer = false then
      Except.error Err.notFound
    else if post.status = some Status.published then
      let post' := { post with viewCount := post.viewCount + 1 }
      Except.ok
        ({ db with
           posts := db.posts.map (fun q => if q.id == pid then post' else q) },
         post')
    else Except.ok (db, post)

/-- The like handler (`router.post('/:id/like')`): 404 when the post is
absent or not published (`!post || post.status !== 'published'`); otherwise
`post.likeCount += 1` and `save()`, returning the new count.  The caller's
identity plays no part: there is no per-user deduplication. -/
def likePost (db : DB) (pid : Nat) : Except Err (DB × Int) :=
  match findPost db pid with
  | none => Except.error Err.notFound
  | some post =>
    if post.status ≠ some Status.published then Except.error Err.notFound
    else
      let post' := { post with likeCount := post.likeCount + 1 }
      Except.ok
        ({ db with
           posts := db.posts.map (fun q => if q.id == pid then post' else q) },
         post'.likeCount)

/-- The catch-branches of the posts router that produce a 500 response with
an `error` field. -/
inductive Route
  | listPosts
  | recentPosts
  | getSingle
  | createRoute
  | updateRoute
  | deleteRoute
  | likeRoute
  | summarize
  | generateAi
  | generateContent
  | improveTitle
  | generateExcerpt
  | aiStatus
deriving DecidableEq, Repr

/-- The value of the `error` field each catch-branch sends, as a function of
NODE_ENV and the caught error's message: every handler sends
`process.env.NODE_ENV === 'development' ? error.message : 'Internal server
error'` — except GET /ai-status, which sends `error.message` with no
environment guard (src/unnamed/part_001 lines 712-715). -/
def errorField (ep : Route) (nodeEnv : String) (msg : String) : String :=
  match ep with
  | Route.aiStatus => msg
  | _ => if nodeEnv == "development" then msg else "Internal server error"

/-- Projection of a handler outcome onto its success payload. -/
def exceptOk {α : Type} (e : Except Err α) : Option α :=
  match e with
  | Except.ok x => some x
  | Except.error _ => none

/-! ### Concrete fixtures -/

/-- A published post owned by user 7. -/
def basePost : Post :=
  { id := 0, author := 7, title := "Old title", content := "Old content 123",
    excerpt := some "old excerpt", coverImage := "", tags := [],
    status := some Status.published, seoTitle := some "old seo",
    seoDescription := some "old desc", featured := true,
    viewCount := 0, likeCount := 0 }

/-- A request body passing `postValidation`, with every optional field
absent except `status`. -/
def baseReq : PostReq :=
  { title := "Valid title", content := "Valid content here", excerpt := none,
    tags := TagsField.arr [], status := some Status.published,
    seoTitle := none, seoDescription := none, featured := none, file := none }

/-- The empty store. -/
def dbEmpty : DB := { tags := [], posts := [], nextTagId := 0, nextPostId := 0 }

/-- Store for the C2 scenario: tags go (id 0) and rust (id 1), each with
`postCount = 1`, and one post (id 0, author 7) tagged {go, rust}. -/
def dbC2 : DB :=
  { tags := [⟨0, "go", 1⟩, ⟨1, "rust", 1⟩],
    posts := [{ basePost with tags := [0, 1] }],
    nextTagId := 2, nextPostId := 1 }

/-- Update request carrying the new tag list ["rust", "python"]. -/
def rC2 : PostReq := { baseReq with tags := TagsField.arr ["rust", "python"] }

/-- Store for the C3 scenario: one tag go (id 0, `postCount = 1`) and one
post (id 0, author 7) tagged {go}. -/
def dbC3 : DB :=
  { tags := [⟨0, "go", 1⟩],
    posts := [{ basePost with tags := [0] }],
    nextTagId := 1, nextPostId := 1 }

/-- Update request whose tag list ["go"] resolves to the post's current tag
set. -/
def rC3 : PostReq := { baseReq with tags := TagsField.arr ["go"] }

/-- Store for the C8 counterexample: one post (id 0, author 7) with
`excerpt`, `seoTitle`, `seoDescription` and `status` all set. -/
def dbC8 : DB :=
  { tags := [], posts := [basePost], nextTagId := 0, nextPostId := 1 }

/-- Update request omitting `excerpt`, `seoTitle`, `seoDescription`,
`status` and `featured` (all `none`). -/
def rC8 : PostReq := { baseReq with status := none }

/-- Create request whose tag list repeats one name up to case. -/
def rC10 : PostReq := { baseReq with tags := TagsField.arr ["Node", "node"] }

/-- Store for the C1 witness: one unrelated tag rust (id 5) and the id
supply at 6. -/
def dbC1w : DB :=
  { tags := [{ id := 5, name := "rust", postCount := 2 }], posts := [],
    nextTagId := 6, nextPostId := 0 }

/-- Create request with the C1 scenario's tag list. -/
def rC1 : PostReq := { baseReq with tags := TagsField.arr ["Go", "go", " GO "] }

/-- The store `dbC3` after its post is deleted by its author: go released to
`postCount = 0`, post record gone. -/
def dbC3del : DB :=
  { tags := [{ id := 0, name := "go", postCount := 0 }], posts := [],
    nextTagId := 1, nextPostId := 1 }

/-- The post of `dbC8` after the update `rC8`: supplied fields overwritten,
omitted excerpt/seo/status cleared, `featured` and the cover image
retained. -/
def pC8res : Post :=
  { basePost with
    title := "Valid title",
    content := "Valid content here",
    excerpt := none,
    status := none,
    seoTitle := none,
    seoDescription := none }

/-- The store `dbC8` after the update `rC8`. -/
def dbC8res : DB :=
  { tags := [], posts := [pC8res], nextTagId := 0, nextPostId := 1 }

/-- A request body failing `postValidation`: the title is shorter than 3
characters. -/
def rBad : PostReq := { baseReq with title := "x" }

/-! ### Helper lemmas about the store primitives -/

theorem find?_append_of_none {α : Type} (p : α → Bool) (l₁ l₂ : List α)
    (h : l₁.find? p = none) : (l₁ ++ l₂).find? p = l₂.find? p := by
  induction l₁ with
  | nil => rfl
  | cons a l ih =>
    rw [List.find?_cons] at h
    rw [List.cons_append, List.find?_cons]
    cases hpa : p a with
    | false =>
      simp only [hpa] at h ⊢
      exact ih h
    | true => simp [hpa] at h

theorem find?_incTags (tags : List Tag) (ids : List Nat) (d : Int) (i : Nat) :
    findTagIn (incTags tags ids d) i =
      (findTagIn tags i).map (fun t =>
        if ids.contains t.id then { t with postCount := t.postCount + d }
        else t) := by
  induction tags with
  | nil => rfl
  | cons t ts ih =>
    have hid : (if ids.contains t.id then
        { t with postCount := t.postCount + d } else t).id = t.id := by
      split <;> rfl
    simp only [findTagIn, incTags] at ih ⊢
    rw [List.map_cons, List.find?_cons, List.find?_cons]
    simp only [hid]
    cases hti : (t.id == i) with
    | false => exact ih
    | true => rfl

theorem tagCountIn_incTags (tags : List Tag) (ids : List Nat) (d : Int)
    (i : Nat) :
    tagCountIn (incTags tags ids d) i =
      (tagCountIn tags i).map (fun c => if ids.contains i then c + d else c) := by
  unfold tagCountIn
  rw [find?_incTags]
  rcases hf : findTagIn tags i with _ | t
  · rfl
  · have hti : t.id = i := by simpa using List.find?_some hf
    subst hti
    cases hc : ids.contains t.id with
    | false =>
      have hm : t.id ∉ ids := by simpa using hc
      simp [hc, hm]
    | true =>
      have hm : t.id ∈ ids := by simpa using hc
      simp [hc, hm]

theorem find?_map_setPost (l : List Post) (pid : Nat) (p' : Post)
    (h : p'.id = pid) :
    ((l.map (fun q => if q.id == pid then p' else q)).find?
        (fun q => q.id == pid)) =
      (l.find? (fun q => q.id == pid)).map (fun _ => p') := by
  induction l with
  | nil => rfl
  | cons q l ih =>
    simp only [List.map_cons, List.find?_cons]
    cases hq : (q.id == pid) with
    | false =>
      have h1 : (if (false = true) then p' else q) = q := by simp
      rw [h1, hq]
      exact ih
    | true =>
      have h1 : (if (true = true) then p' else q) = p' := by simp
      rw [h1]
      have hp' : (p'.id == pid) = true := by simp [h]
      rw [hp']
      rfl

theorem find?_filter_ne (l : List Post) (pid : Nat) :
    (l.filter (fun q => q.id != pid)).find? (fun q => q.id == pid) = none := by
  rw [List.find?_eq_none]
  intro q hq
  have := (List.mem_filter.mp hq).2
  simp only [bne_iff_ne, ne_eq] at this
  simp [this]

theorem incTags_of_disjoint (l : List Tag) (ids : List Nat) (d : Int)
    (h : ∀ t ∈ l, ids.contains t.id = false) : incTags l ids d = l := by
  unfold incTags
  conv_rhs => rw [← List.map_id l]
  refine List.map_congr_left (fun t ht => ?_)
  rw [if_neg (by rw [h t ht]; simp)]
  rfl

theorem incTags_append (l₁ l₂ : List Tag) (ids : List Nat) (d : Int) :
    incTags (l₁ ++ l₂) ids d = incTags l₁ ids d ++ incTags l₂ ids d := by
  unfold incTags
  exact List.map_append ..

/-- Unfolding of the tag loop on a non-empty name that resolves to an
existing tag. -/
theorem resolveTags_cons_found (name : String) (rest : List String)
    (tags : List Tag) (next : Nat) (t : Tag) (hne : (name == "") = false)
    (hfind : tags.find? (fun x => x.name == tagStoreNorm (jsToLower name)) =
      some t) :
    resolveTags (name :: rest) tags next =
      (t.id :: (resolveTags rest tags next).1,
        (resolveTags rest tags next).2) := by
  rw [resolveTags]
  rw [if_neg (by simp [hne] : ¬ (name == "") = true)]
  simp only [hfind]

/-- Unfolding of the tag loop on a non-empty name with no matching tag: a tag
with the normalised name and `postCount = 0` is created. -/
theorem resolveTags_cons_new (name : String) (rest : List String)
    (tags : List Tag) (next : Nat) (nt : Tag) (hne : (name == "") = false)
    (hfind : tags.find? (fun x => x.name == tagStoreNorm (jsToLower name)) =
      none)
    (hnt : nt = { id := next, name := tagStoreNorm (jsToLower name), postCount := 0 }) :
    resolveTags (name :: rest) tags next =
      (next :: (resolveTags rest (tags ++ [nt]) (next + 1)).1,
        (resolveTags rest (tags ++ [nt]) (next + 1)).2) := by
  subst hnt
  rw [resolveTags]
  rw [if_neg (by simp [hne] : ¬ (name == "") = true)]
  simp only [hfind]

/-! ### Claims -/

/-- C2: updating the post of `dbC2` from tag set {go, rust} to
{rust, python}.  The claim says `go.postCount -= 1`, `python.postCount += 1`
and rust unchanged; the code delivers go 1 → 0 and python 1 as claimed but
ALSO decrements the retained tag rust 1 → 0.  Cause: `removedTagIds =
oldTagIds.filter(tagId => !tagIds.includes(tagId.toString()))` asks a plain
array of ObjectIds whether it contains a string, which is never true, so
every old tag — retained or not — is decremented, while `addedTagIds` (the
mongoose-array `includes`, ObjectId-aware) correctly adds only python.  The
code's own comment says "remove from old tags, add to new tags". -/
theorem c2_update_decrements_retained_tag :
    tagCountByName dbC2 "go" = some 1 ∧
    tagCountByName dbC2 "rust" = some 1 ∧
    (exceptOk (updatePost dbC2 0 7 rC2)).map
        (fun x => (tagCountByName x.1 "go", tagCountByName x.1 "rust",
          tagCountByName x.1 "python")) =
      some (some 0, some 0, some 1) :=
  ⟨rfl, rfl, rfl⟩

/-- C3: updating the post of `dbC3` with the unchanged tag list ["go"].
The claim says no tag's `postCount` changes; the code decrements go's count
1 → 0, because `removedTagIds` wrongly contains every old tag (the
ObjectId-versus-string `includes`) and `addedTagIds` is empty — the
re-supplied tag is not "added". -/
theorem c3_update_unchanged_tags_not_noop :
    tagCountByName dbC3 "go" = some 1 ∧
    (exceptOk (updatePost dbC3 0 7 rC3)).map
        (fun x => tagCountByName x.1 "go") = some (some 0) :=
  ⟨rfl, rfl⟩

/-- C8 counterexample: the post of `dbC8` has `excerpt`, `seoTitle` and
`status` set; the update `rC8` omits them, and after the update all three
are cleared rather than retained — `Object.assign` copies the undefined
destructured body fields onto the document, unsetting those paths.  This
refutes the claim that an update omitting excerpt / seoTitle /
seoDescription / status leaves those fields as they were. -/
theorem c8_counterexample_omitted_fields_cleared :
    (findPost dbC8 0).map Post.excerpt = some (some "old excerpt") ∧
    (findPost dbC8 0).map Post.seoTitle = some (some "old seo") ∧
    (findPost dbC8 0).map Post.status = some (some Status.published) ∧
    (exceptOk (updatePost dbC8 0 7 rC8)).map
        (fun x => ((findPost x.1 0).map Post.excerpt,
          (findPost x.1 0).map Post.seoTitle,
          (findPost x.1 0).map Post.status)) =
      some (some none, some none, some none) :=
  ⟨rfl, rfl, rfl, rfl⟩

/-- C9 counterexample: with NODE_ENV = "production", the GET /ai-status
catch-branch still sends the caught error's message in the `error` field —
internal error detail exposed in a production configuration, refuting the
claim that every error response in production carries only the generic
outward message. -/
theorem c9_counterexample_ai_status_leaks_in_production :
    errorField Route.aiStatus "production" "connect ECONNREFUSED"
      = "connect ECONNREFUSED" ∧
    errorField Route.aiStatus "production" "connect ECONNREFUSED"
      ≠ "Internal server error" :=
  ⟨rfl, by decide⟩

/-- C9 amended: every catch-branch of the posts router except GET /ai-status
sends the generic "Internal server error" whenever NODE_ENV is not
"development" — in particular in production; the GET /ai-status branch sends
the caught error's message in every configuration. -/
theorem c9_amended_generic_outside_development :
    (∀ (ep : Route) (env msg : String), ep ≠ Route.aiStatus →
      env ≠ "development" → errorField ep env msg = "Internal server error") ∧
    (∀ (env msg : String), errorField Route.aiStatus env msg = msg) := by
  constructor
  · intro ep env msg hep henv
    have he : (env == "development") = false := by simp [henv]
    cases ep <;> first
      | exact absurd rfl hep
      | simp [errorField, he]
  · intro env msg
    rfl

theorem c9_amended_witness :
    errorField Route.createRoute "production" "boom" = "Internal server error" ∧
    errorField Route.aiStatus "production" "boom" = "boom" :=
  ⟨c9_amended_generic_outside_development.1 Route.createRoute "production"
      "boom" (by decide) (by decide),
    c9_amended_generic_outside_development.2 "production" "boom"⟩

/-- C10: a create whose tag list repeats a name after lower-casing stores the
duplicate TagRef in the post's `tags` array, yet the `$in`-based
`updateMany` increments each distinct tag's `postCount` by exactly 1.
First conjunct: the concrete create with ["Node", "node"] yields a post
whose tags array is [0, 0] while the single tag node ends with
`postCount = 1`, not 2.  Second conjunct: the count update `incTags` — the
embedding of `updateMany({_id: {$in: ids}}, {$inc: ...})` used by the create
handler — moves any tag's count by the delta exactly once, depending only on
whether its id is in the list, never on how often it occurs. -/
theorem c10_duplicate_tag_refs_count_once :
    ((exceptOk (createPost dbEmpty 7 rC10)).map
        (fun x => (x.2.tags, x.1.tags)) =
      some ([0, 0], [{ id := 0, name := "node", postCount := 1 }])) ∧
    (∀ (tags : List Tag) (ids : List Nat) (d : Int) (i : Nat),
      tagCountIn (incTags tags ids d) i =
        (tagCountIn tags i).map
          (fun c => if ids.contains i then c + d else c)) :=
  ⟨rfl, tagCountIn_incTags⟩

/-- Success form of the create handler: with validation passing, the handler
resolves the tag list, appends the new post, and increments every resolved
tag once. -/
theorem createPost_eq_ok (db : DB) (userId : Nat) (r : PostReq) (p : Post)
    (rt : List Nat × List Tag × Nat)
    (hv : postValidationOk r.title r.content = true)
    (hrt : rt = resolveTags (tagNamesOf r.tags) db.tags db.nextTagId)
    (hp : p =
      { id := db.nextPostId,
        author := userId,
        title := jsTrim r.title,
        content := jsTrim r.content,
        excerpt := r.excerpt,
        coverImage := coverPathOr r.file "",
        tags := rt.1,
        status := some (r.status.getD Status.draft),
        seoTitle := r.seoTitle,
        seoDescription := r.seoDescription,
        featured := r.featured.getD false,
        viewCount := 0,
        likeCount := 0 }) :
    createPost db userId r = Except.ok
      ({ tags := incTags rt.2.1 rt.1 1,
         posts := db.posts ++ [p],
         nextTagId := rt.2.2,
         nextPostId := db.nextPostId + 1 }, p) := by
  subst hrt
  subst hp
  unfold createPost
  rw [if_pos hv]

/-- Success form of the update handler: with validation passing, the post
found and owned by the requester, the handler resolves the tag list,
decrements every OLD tag once, increments every genuinely new tag once, and
overwrites the post's fields from the request body. -/
theorem updatePost_eq_ok (db : DB) (pid rid : Nat) (r : PostReq) (p p₂ : Post)
    (rt : List Nat × List Tag × Nat)
    (hv : postValidationOk r.title r.content = true)
    (hfind : findPost db pid = some p) (hauth : p.author = rid)
    (hrt : rt = resolveTags (tagNamesOf r.tags) db.tags db.nextTagId)
    (hp₂ : p₂ =
      { p with
        title := jsTrim r.title,
        content := jsTrim r.content,
        excerpt := r.excerpt,
        coverImage := coverPathOr r.file p.coverImage,
        tags := rt.1,
        status := r.status,
        seoTitle := r.seoTitle,
        seoDescription := r.seoDescription,
        featured := r.featured.getD p.featured }) :
    updatePost db pid rid r = Except.ok
      ({ db with
         tags := incTags (incTags rt.2.1 p.tags (-1))
           (rt.1.filter (fun i => !p.tags.contains i)) 1,
         nextTagId := rt.2.2,
         posts := db.posts.map (fun q => if q.id == pid then p₂ else q) },
       p₂) := by
  subst hrt
  subst hp₂
  unfold updatePost
  rw [if_pos hv]
  simp only [hfind]
  rw [if_neg (by simp [hauth])]

/-- Success form of the delete handler: with the post found and owned by the
requester, every tag of the post is decremented once and the post record is
removed. -/
theorem deletePost_eq_ok (db : DB) (pid rid : Nat) (p : Post)
    (hfind : findPost db pid = some p) (hauth : p.author = rid) :
    deletePost db pid rid = Except.ok
      { db with
        tags := incTags db.tags p.tags (-1),
        posts := db.posts.filter (fun q => q.id != pid) } := by
  unfold deletePost
  simp only [hfind]
  rw [if_neg (by simp [hauth])]

/-- The tag loop on the C1 scenario's names: on a store with no tag named
go, "Go" creates the tag, and "go" and " GO " resolve to it after the
lower-casing in the handler and the trim in the store's name setter. -/
theorem resolveTags_c1 (tags : List Tag) (next : Nat)
    (hno : ∀ t ∈ tags, t.name ≠ "go") :
    resolveTags ["Go", "go", " GO "] tags next =
      ([next, next, next],
        tags ++ [{ id := next, name := "go", postCount := 0 }], next + 1) := by
  have hkey1 : tagStoreNorm (jsToLower "Go") = "go" := by decide
  have hkey2 : tagStoreNorm (jsToLower "go") = "go" := by decide
  have hkey3 : tagStoreNorm (jsToLower " GO ") = "go" := by decide
  have hnone : tags.find? (fun x => x.name == "go") = none := by
    rw [List.find?_eq_none]
    intro t ht
    simp [hno t ht]
  have hfind0 :
      tags.find? (fun x => x.name == tagStoreNorm (jsToLower "Go")) = none := by
    rw [hkey1]
    exact hnone
  have hsingle :
      ([({ id := next, name := "go", postCount := 0 } : Tag)].find?
        (fun x => x.name == "go")) =
      some { id := next, name := "go", postCount := 0 } := by
    simp [List.find?_cons]
  have hfind1 :
      ((tags ++ [({ id := next, name := "go", postCount := 0 } : Tag)]).find?
        (fun x => x.name == tagStoreNorm (jsToLower "go"))) =
      some { id := next, name := "go", postCount := 0 } := by
    rw [hkey2, find?_append_of_none _ _ _ hnone]
    exact hsingle
  have hfind2 :
      ((tags ++ [({ id := next, name := "go", postCount := 0 } : Tag)]).find?
        (fun x => x.name == tagStoreNorm (jsToLower " GO "))) =
      some { id := next, name := "go", postCount := 0 } := by
    rw [hkey3, find?_append_of_none _ _ _ hnone]
    exact hsingle
  rw [resolveTags_cons_new "Go" ["go", " GO "] tags next
    { id := next, name := "go", postCount := 0 } (by decide) hfind0
    (by rw [hkey1])]
  rw [resolveTags_cons_found "go" [" GO "] _ _ _ (by decide) hfind1]
  rw [resolveTags_cons_found " GO " [] _ _ _ (by decide) hfind2]
  rfl

/-- C1: a create whose tag list is ["Go", "go", " GO "], on any store with
no tag named go and a fresh id supply, creates exactly one new Tag — named
go, with postCount = 1 — leaves every pre-existing tag record (including its
count) untouched, and the created post references only that single tag (the
loop pushes the same id once per occurrence, so the array holds three copies
of it). -/
theorem c1_create_folds_case_and_whitespace (db : DB) (userId : Nat)
    (r : PostReq) (htags : r.tags = TagsField.arr ["Go", "go", " GO "])
    (hvalid : postValidationOk r.title r.content = true)
    (hname : ∀ t ∈ db.tags, t.name ≠ "go")
    (hfresh : ∀ t ∈ db.tags, t.id ≠ db.nextTagId) :
    ∃ db' p, createPost db userId r = Except.ok (db', p) ∧
      db'.tags = db.tags ++
        [{ id := db.nextTagId, name := "go", postCount := 1 }] ∧
      p.tags = [db.nextTagId, db.nextTagId, db.nextTagId] := by
  have hres : resolveTags (tagNamesOf r.tags) db.tags db.nextTagId =
      ([db.nextTagId, db.nextTagId, db.nextTagId],
        db.tags ++ [{ id := db.nextTagId, name := "go", postCount := 0 }],
        db.nextTagId + 1) := by
    rw [htags]
    exact resolveTags_c1 db.tags db.nextTagId hname
  have hdisj : ∀ t ∈ db.tags,
      (([db.nextTagId, db.nextTagId, db.nextTagId] : List Nat).contains t.id)
        = false := by
    intro t ht
    have h1 := hfresh t ht
    simp [h1]
  refine ⟨_, _,
    createPost_eq_ok db userId r _
      ([db.nextTagId, db.nextTagId, db.nextTagId],
        db.tags ++ [{ id := db.nextTagId, name := "go", postCount := 0 }],
        db.nextTagId + 1)
      hvalid hres.symm rfl, ?_, ?_⟩
  · show incTags
        (db.tags ++ [{ id := db.nextTagId, name := "go", postCount := 0 }])
        [db.nextTagId, db.nextTagId, db.nextTagId] 1 = _
    rw [incTags_append, incTags_of_disjoint db.tags _ _ hdisj]
    have hone : incTags [{ id := db.nextTagId, name := "go", postCount := 0 }]
        [db.nextTagId, db.nextTagId, db.nextTagId] 1 =
        [{ id := db.nextTagId, name := "go", postCount := 1 }] := by
      simp [incTags]
    rw [hone]
  · rfl

theorem c1_witness :
    ∃ db' p,
      createPost dbC1w 9 rC1 = Except.ok (db', p) ∧
      db'.tags = dbC1w.tags ++ [{ id := 6, name := "go", postCount := 1 }] ∧
      p.tags = [6, 6, 6] :=
  c1_create_folds_case_and_whitespace dbC1w 9 rC1
    rfl (by decide) (by decide) (by decide)

/-- C4: every successful delete is performed by the post's author, and it
decrements `postCount` by exactly 1 for every tag id in the post's tag set,
leaves the count of every other tag unchanged, removes the post record, and
keeps every other post. -/
theorem c4_delete_releases_and_removes (db : DB) (pid rid : Nat) (db' : DB)
    (h : deletePost db pid rid = Except.ok db') :
    ∃ p, findPost db pid = some p ∧ p.author = rid ∧
      (∀ i, p.tags.contains i = true →
        tagCount db' i = (tagCount db i).map (fun c => c - 1)) ∧
      (∀ i, p.tags.contains i = false → tagCount db' i = tagCount db i) ∧
      findPost db' pid = none ∧
      (∀ q ∈ db.posts, q.id ≠ pid → q ∈ db'.posts) := by
  unfold deletePost at h
  rcases hf : findPost db pid with _ | p
  · rw [hf] at h
    simp at h
  · simp only [hf] at h
    by_cases hauth : p.author ≠ rid
    · rw [if_pos hauth] at h
      cases h
    · rw [if_neg hauth] at h
      injection h with h1
      subst h1
      refine ⟨p, rfl, not_ne_iff.mp hauth, ?_, ?_, ?_, ?_⟩
      · intro i hi
        show tagCountIn (incTags db.tags p.tags (-1)) i =
          (tagCountIn db.tags i).map (fun c => c - 1)
        rw [tagCountIn_incTags]
        rcases tagCountIn db.tags i with _ | c
        · rfl
        · show some (if p.tags.contains i then c + (-1) else c) = some (c - 1)
          rw [if_pos hi]
          exact congrArg some (by omega)
      · intro i hi
        show tagCountIn (incTags db.tags p.tags (-1)) i =
          tagCountIn db.tags i
        rw [tagCountIn_incTags]
        rcases tagCountIn db.tags i with _ | c
        · rfl
        · show some (if p.tags.contains i then c + (-1) else c) = some c
          rw [if_neg (by rw [hi]; simp)]
      · show (db.posts.filter (fun q => q.id != pid)).find?
            (fun q => q.id == pid) = none
        exact find?_filter_ne db.posts pid
      · intro q hq hne
        show q ∈ db.posts.filter (fun q => q.id != pid)
        rw [List.mem_filter]
        exact ⟨hq, by simp [hne]⟩

theorem c4_witness :
    ∃ p, findPost dbC3 0 = some p ∧ p.author = 7 ∧
      (∀ i, p.tags.contains i = true →
        tagCount dbC3del i = (tagCount dbC3 i).map (fun c => c - 1)) ∧
      (∀ i, p.tags.contains i = false →
        tagCount dbC3del i = tagCount dbC3 i) ∧
      findPost dbC3del 0 = none ∧
      (∀ q ∈ dbC3.posts, q.id ≠ 0 → q ∈ dbC3del.posts) :=
  c4_delete_releases_and_removes dbC3 0 7 dbC3del (by rfl)

/-- C5 counterexample: an update whose body fails validation (here a title
shorter than 3 characters), sent for an id carried by no post, fails with
the 400 validation error and NOT with NotFoundError — the handler checks
`validationResult` before `Post.findById` — refuting the claim that for
every update request an absent post yields NotFoundError. -/
theorem c5_counterexample_validation_precedes_lookup :
    findPost dbEmpty 0 = none ∧
    updatePost dbEmpty 0 7 rBad = Except.error Err.validation ∧
    Err.validation ≠ Err.notFound :=
  ⟨rfl, rfl, by decide⟩

/-- C5 amended: for every delete request, an absent post yields
NotFoundError and a post owned by another author yields ForbiddenError.
For every update request, a body failing validation yields the validation
error first, regardless of whether the post exists or who owns it; with a
body passing validation, an absent post yields NotFoundError and a foreign
post ForbiddenError.  In this embedding a handler's only output channel is
the returned store, and all of these failure paths return before any write,
so an error outcome carries no state change — the post, its fields and
every tag's postCount are exactly as before the call. -/
theorem c5_amended_not_found_and_forbidden (db : DB) (pid rid : Nat)
    (r : PostReq) :
    (findPost db pid = none →
      deletePost db pid rid = Except.error Err.notFound) ∧
    (∀ p, findPost db pid = some p → p.author ≠ rid →
      deletePost db pid rid = Except.error Err.forbidden) ∧
    (postValidationOk r.title r.content = false →
      updatePost db pid rid r = Except.error Err.validation) ∧
    (postValidationOk r.title r.content = true →
      (findPost db pid = none →
        updatePost db pid rid r = Except.error Err.notFound) ∧
      (∀ p, findPost db pid = some p → p.author ≠ rid →
        updatePost db pid rid r = Except.error Err.forbidden)) := by
  refine ⟨?_, ?_, ?_, ?_⟩
  · intro hf
    unfold deletePost
    simp only [hf]
  · intro p hf hauth
    unfold deletePost
    simp only [hf]
    rw [if_pos hauth]
  · intro hv
    unfold updatePost
    rw [if_neg (by simp [hv])]
  · intro hvalid
    constructor
    · intro hf
      unfold updatePost
      rw [if_pos hvalid]
      simp only [hf]
    · intro p hf hauth
      unfold updatePost
      rw [if_pos hvalid]
      simp only [hf]
      rw [if_pos hauth]

theorem c5_amended_witness :
    deletePost dbC3 5 7 = Except.error Err.notFound ∧
    deletePost dbC3 0 9 = Except.error Err.forbidden ∧
    updatePost dbEmpty 0 7 rBad = Except.error Err.validation ∧
    updatePost dbC3 5 7 rC3 = Except.error Err.notFound ∧
    updatePost dbC3 0 9 rC3 = Except.error Err.forbidden :=
  ⟨(c5_amended_not_found_and_forbidden dbC3 5 7 rC3).1 rfl,
    (c5_amended_not_found_and_forbidden dbC3 0 9 rC3).2.1
      { basePost with tags := [0] } rfl (by decide),
    (c5_amended_not_found_and_forbidden dbEmpty 0 7 rBad).2.2.1 (by decide),
    ((c5_amended_not_found_and_forbidden dbC3 5 7 rC3).2.2.2 (by decide)).1
      rfl,
    ((c5_amended_not_found_and_forbidden dbC3 0 9 rC3).2.2.2 (by decide)).2
      { basePost with tags := [0] } rfl (by decide)⟩

/-- A write-back by id over the posts collection is observed by a later
`findById` with the same id: the updated document is returned. -/
theorem find?_set_of_found (l : List Post) (pid : Nat) (p p' : Post)
    (hpid : p'.id = pid) (hf : l.find? (fun q => q.id == pid) = some p) :
    (l.map (fun q => if q.id == pid then p' else q)).find?
      (fun q => q.id == pid) = some p' := by
  rw [find?_map_setPost l pid p' hpid, hf]
  rfl

/-- C6: reading a single post by id: when it is published the read returns
it with `viewCount` incremented by exactly 1 — in the store and in the
returned copy alike — for every viewer identity, leaving `likeCount` and the
tag store untouched; when it is not published no counter changes: the read
either fails with NotFoundError (a viewer who may not see drafts) or returns
the post with the store exactly as it was (an admin viewer). -/
theorem c6_view_increment_iff_published (db : DB) (pid : Nat)
    (viewer : Option Role) (p : Post) (hfind : findPost db pid = some p) :
    (p.status = some Status.published →
      ∃ db' p', getPost db pid viewer = Except.ok (db', p') ∧
        p'.viewCount = p.viewCount + 1 ∧ p'.likeCount = p.likeCount ∧
        findPost db' pid = some p' ∧ db'.tags = db.tags) ∧
    (p.status ≠ some Status.published →
      getPost db pid viewer = Except.error Err.notFound ∨
      getPost db pid viewer = Except.ok (db, p)) := by
  have hpid : p.id = pid := by simpa using List.find?_some hfind
  constructor
  · intro hp
    refine ⟨{ db with posts := db.posts.map (fun q => if q.id == pid then { p with viewCount := p.viewCount + 1 } else q) }, { p with viewCount := p.viewCount + 1 }, ?_, rfl, rfl, ?_, rfl⟩
    · unfold getPost
      simp only [hfind]
      rw [if_neg (by simp [hp]), if_pos hp]
    · exact find?_set_of_found db.posts pid p _ hpid hfind
  · intro hp
    unfold getPost
    simp only [hfind]
    by_cases hv : canSeeDraft viewer = false
    · left
      rw [if_pos ⟨hp, hv⟩]
    · right
      rw [if_neg (fun hc => hv hc.2), if_neg hp]

theorem c6_witness :
    ∃ db' p', getPost dbC3 0 none = Except.ok (db', p') ∧
      p'.viewCount = ({ basePost with tags := [0] } : Post).viewCount + 1 ∧
      p'.likeCount = ({ basePost with tags := [0] } : Post).likeCount ∧
      findPost db' 0 = some p' ∧ db'.tags = dbC3.tags :=
  (c6_view_increment_iff_published dbC3 0 none { basePost with tags := [0] }
    rfl).1 rfl

/-- C7: liking a post: when it exists and is published, `likeCount` is
incremented by exactly 1 per call — the handler never consults the caller's
identity, so repeated calls by the same actor keep incrementing — the new
count is returned, and `viewCount` and the tag store are untouched; when the
post is absent or not published the call fails with NotFoundError, and in
this embedding an error outcome carries no state change. -/
theorem c7_like_unconditional_increment (db : DB) (pid : Nat) :
    (∀ p, findPost db pid = some p → p.status = some Status.published →
      ∃ db' p', likePost db pid = Except.ok (db', p.likeCount + 1) ∧
        findPost db' pid = some p' ∧ p'.likeCount = p.likeCount + 1 ∧
        p'.viewCount = p.viewCount ∧ db'.tags = db.tags) ∧
    ((findPost db pid = none ∨
        ∃ p, findPost db pid = some p ∧ p.status ≠ some Status.published) →
      likePost db pid = Except.error Err.notFound) := by
  constructor
  · intro p hfind hp
    have hpid : p.id = pid := by simpa using List.find?_some hfind
    refine ⟨{ db with posts := db.posts.map (fun q => if q.id == pid then { p with likeCount := p.likeCount + 1 } else q) }, { p with likeCount := p.likeCount + 1 }, ?_, ?_, rfl, rfl, rfl⟩
    · unfold likePost
      simp only [hfind]
      rw [if_neg (by simp [hp])]
    · exact find?_set_of_found db.posts pid p _ hpid hfind
  · intro h
    rcases h with hnone | ⟨p, hfind, hp⟩
    · unfold likePost
      simp only [hnone]
    · unfold likePost
      simp only [hfind]
      rw [if_pos hp]

theorem c7_witness :
    (∃ db' p', likePost dbC3 0 =
        Except.ok (db', ({ basePost with tags := [0] } : Post).likeCount + 1) ∧
      findPost db' 0 = some p' ∧
      p'.likeCount = ({ basePost with tags := [0] } : Post).likeCount + 1 ∧
      p'.viewCount = ({ basePost with tags := [0] } : Post).viewCount ∧
      db'.tags = dbC3.tags) ∧
    likePost dbC3 5 = Except.error Err.notFound :=
  ⟨(c7_like_unconditional_increment dbC3 0).1 { basePost with tags := [0] }
      rfl rfl,
    (c7_like_unconditional_increment dbC3 5).2 (Or.inl rfl)⟩

/-- C8 amended: in every successful update, `featured` is overwritten only
when explicitly provided and otherwise keeps the post's previous value, and
the cover image is overwritten only when a replacement file is supplied and
otherwise retained; but `excerpt`, `seoTitle`, `seoDescription` and `status`
are always overwritten with the supplied body value — when omitted they are
cleared (set to the unset value), not retained — and `title` and `content`
(which validation forces to be supplied) are always overwritten with their
trimmed values. -/
theorem c8_amended_field_overwrite_semantics (db : DB) (pid rid : Nat)
    (r : PostReq) (db' : DB) (p₂ p : Post)
    (hfind : findPost db pid = some p)
    (h : updatePost db pid rid r = Except.ok (db', p₂)) :
    p₂.featured = r.featured.getD p.featured ∧
    p₂.coverImage = coverPathOr r.file p.coverImage ∧
    p₂.excerpt = r.excerpt ∧
    p₂.seoTitle = r.seoTitle ∧
    p₂.seoDescription = r.seoDescription ∧
    p₂.status = r.status ∧
    p₂.title = jsTrim r.title ∧
    p₂.content = jsTrim r.content ∧
    findPost db' pid = some p₂ := by
  have hpid : p.id = pid := by simpa using List.find?_some hfind
  cases hv : postValidationOk r.title r.content with
  | false =>
    unfold updatePost at h
    rw [if_neg (by simp [hv])] at h
    cases h
  | true =>
    by_cases hne : p.author ≠ rid
    · unfold updatePost at h
      rw [if_pos hv] at h
      simp only [hfind] at h
      rw [if_pos hne] at h
      cases h
    · have hauth : p.author = rid := not_ne_iff.mp hne
      rw [updatePost_eq_ok db pid rid r p _ _ hv hfind hauth rfl rfl] at h
      injection h with h1
      rw [Prod.mk.injEq] at h1
      obtain ⟨h2, h3⟩ := h1
      subst h2
      subst h3
      refine ⟨rfl, rfl, rfl, rfl, rfl, rfl, rfl, rfl, ?_⟩
      exact find?_set_of_found db.posts pid p _ hpid hfind

theorem c8_amended_witness :
    pC8res.featured = rC8.featured.getD basePost.featured ∧
    pC8res.coverImage = coverPathOr rC8.file basePost.coverImage ∧
    pC8res.excerpt = rC8.excerpt ∧
    pC8res.seoTitle = rC8.seoTitle ∧
    pC8res.seoDescription = rC8.seoDescription ∧
    pC8res.status = rC8.status ∧
    pC8res.title = jsTrim rC8.title ∧
    pC8res.content = jsTrim rC8.content ∧
    findPost dbC8res 0 = some pC8res :=
  c8_amended_field_overwrite_semantics dbC8 0 7 rC8 dbC8res pC8res basePost
    rfl (by rfl)

end ThisBlog
